import Mathlib

/-!
Verification development for the environmental-monitoring system: a drone
edge node (drone.py) that ingests sensor readings, detects anomalies over
rolling windows, simulates a battery-driven availability state machine and
forwards periodic summaries, plus a central aggregator (server.py) keeping
per-drone bounded time series.  Numeric sample values are modelled as
rationals, raw bytes as lists of naturals, and string identifiers as
naturals.
-/

/-- Capacity of each rolling window: drone.py lines 58-59 construct the
temperature and humidity deques with maxlen 10. -/
def windowMaxlen : Nat := 10

/-- Bounded append modelling collections.deque append under a maxlen: the
new element goes to the right and, if the capacity is exceeded, the oldest
(leftmost) elements are discarded. -/
def deque_append (cap : Nat) (w : List ℚ) (x : ℚ) : List ℚ :=
  if cap < (w ++ [x]).length then (w ++ [x]).drop ((w ++ [x]).length - cap)
  else w ++ [x]

/-- Arithmetic mean sum(readings) / len(readings), drone.py line 132
(rational division, with the Lean convention that division by zero yields
zero; detect_anomaly only evaluates the mean on full windows). -/
def listMean (l : List ℚ) : ℚ := l.sum / l.length

/-- Population variance: sum of squared deviations divided by N, drone.py
line 133. -/
def listPopVar (l : List ℚ) : ℚ :=
  ((l.map fun x => (x - listMean l) ^ 2).sum) / l.length

/-- Anomaly classifier detect_anomaly, drone.py lines 129-137.  The source
compares abs(value - mean) > 2 * sqrt(var); both sides are nonnegative, so
this equals (value - mean)^2 > 4 * var, which keeps the definition inside
ℚ and hence executable.  The equivalence with the square-root form is part
of detect_anomaly_spec below. -/
def detect_anomaly (value : ℚ) (readings : List ℚ) : Bool :=
  if readings.length < windowMaxlen then false
  else decide ((value - listMean readings) ^ 2 > 4 * listPopVar readings)

/-- Drone status values, drone.py strings at lines 65, 85, 109, 111, 117. -/
inductive Status where
  | Normal
  | ReturningToBase
  | Charging
deriving DecidableEq

/-- Position of the battery thread inside its loop: loopTop is the top of
the while-True loop (drone.py line 76); waiting is the suspension at
time.sleep(30) after status became ReturningToBase (line 110); charging is
the suspension at time.sleep(5) after status became Charging (line 113). -/
inductive BatteryPhase where
  | loopTop
  | waiting
  | charging
deriving DecidableEq

/-- Module-level mutable state of drone.py touched by the battery state
machine and the ingestion lifecycle (lines 36-71): battery level, the
configured threshold (loaded at line 39), the control flags, the status,
whether the listening socket is open, the active sensor sockets
(identified by numbers) and how many listener / forwarder threads are
currently running. -/
structure DroneState where
  battery_level : Int
  battery_threshold : Int
  returning_to_base : Bool
  running : Bool
  status : Status
  sensor_server_open : Bool
  active_sensor_sockets : List Nat
  sensor_server_count : Nat
  summary_count : Nat
  phase : BatteryPhase
deriving DecidableEq

/-- One step of the battery thread, update_battery at drone.py lines
74-125, advancing from one suspension point to the next.  The drain tick
(lines 79-102) decrements the level and, when the result is at most the
hard-coded constant 10 (line 83 compares battery_level <= 10 and never
consults battery_threshold), closes the listening socket, clears the
active sockets and stops the forwarder.  The depleted branch (lines
103-106) only sets the flag and the status.  The recharge branch (lines
107-125) passes through ReturningToBase and Charging and then resets the
level and restarts the listener and the forwarder guarded on liveness. -/
def update_battery_step (s : DroneState) : DroneState :=
  match s.phase with
  | .loopTop =>
      if !s.returning_to_base then
        if s.battery_level > 0 then
          let level := s.battery_level - 1
          if level ≤ 10 ∧ s.returning_to_base = false then
            { s with battery_level := level, returning_to_base := true,
                     status := .ReturningToBase, sensor_server_open := false,
                     active_sensor_sockets := [], running := false }
          else
            { s with battery_level := level }
        else
          { s with returning_to_base := true, status := .ReturningToBase }
      else
        { s with status := .ReturningToBase, phase := .waiting }
  | .waiting =>
      { s with status := .Charging, phase := .charging }
  | .charging =>
      { s with battery_level := 100, returning_to_base := false,
               running := true, status := .Normal, phase := .loopTop,
               sensor_server_open :=
                 if s.sensor_server_count = 0 then true else s.sensor_server_open,
               sensor_server_count :=
                 if s.sensor_server_count = 0 then 1 else s.sensor_server_count,
               summary_count :=
                 if s.summary_count = 0 then 1 else s.summary_count }

/-- Duration slept by the battery thread during one step: 60 for a drain
tick (drone.py line 80), 30 entering the recharge branch (line 110), 5
while charging (line 113), 0 otherwise. -/
def update_battery_sleep (s : DroneState) : Nat :=
  match s.phase with
  | .loopTop =>
      if !s.returning_to_base then
        if s.battery_level > 0 then 60 else 0
      else 30
  | .waiting => 5
  | .charging => 0

/-- The ingestion server is accepting new sensor connections when a
listener thread is running, the listening socket is open, and the accept
loop guard while not returning_to_base (drone.py line 220) holds. -/
def accepting (s : DroneState) : Bool :=
  !s.returning_to_base && s.sensor_server_open && decide (0 < s.sensor_server_count)

/-- Interleaved drone events that touch DroneState: a battery-thread step;
the accept loop taking in a connection (drone.py lines 220-223, guarded);
a connection handler finishing and removing its socket (lines 174-175); a
listener or forwarder thread exiting once its loop guard has failed or its
socket was closed (lines 220-225, 181-185). -/
inductive SysStep : DroneState → DroneState → Prop where
  | battery (s : DroneState) : SysStep s (update_battery_step s)
  | accept (s : DroneState) (c : Nat) : accepting s = true →
      SysStep s { s with active_sensor_sockets := s.active_sensor_sockets ++ [c] }
  | disconnect (s : DroneState) (c : Nat) :
      SysStep s { s with active_sensor_sockets := s.active_sensor_sockets.erase c }
  | listener_stop (s : DroneState) :
      s.returning_to_base = true ∨ s.sensor_server_open = false →
      SysStep s { s with sensor_server_count := s.sensor_server_count - 1 }
  | forwarder_stop (s : DroneState) :
      s.returning_to_base = true ∨ s.running = false →
      SysStep s { s with summary_count := s.summary_count - 1 }

/-- States reachable from an initial state by interleaved steps. -/
inductive Reachable (init : DroneState) : DroneState → Prop where
  | refl : Reachable init init
  | tail {s t : DroneState} : Reachable init s → SysStep s t → Reachable init t

/-- One pass of the per-connection receive loop body, drone.py
handle_sensor_connection lines 148-167: append the received chunk to the
buffer, offer the whole accumulated buffer to the decoder (json.loads on
the full byte string, abstracted as the decode argument), reset the buffer
to empty on success and keep every byte on failure. -/
def handle_sensor_chunk {α : Type} (decode : List Nat → Option α)
    (buffer chunk : List Nat) : List Nat × Option α :=
  match decode (buffer ++ chunk) with
  | some r => ([], some r)
  | none => (buffer ++ chunk, none)

/-- Anomaly record, drone.py line 164: sensor id (a number standing for
the string), offending value, timestamp. -/
structure Anomaly where
  sensor_id : Nat
  value : ℚ
  timestamp : Nat
deriving DecidableEq

/-- Summary record assembled at drone.py lines 195-203. -/
structure Summary where
  drone_id : Nat
  sensor_ids : Finset Nat
  average_temperature : ℚ
  average_humidity : ℚ
  anomalies : List Anomaly
  battery_level : Int
  timestamp : Nat
deriving DecidableEq

/-- Drone-side state read and written by send_summary, drone.py lines
179-210: the rolling windows, the pending-anomaly queue, the anomaly
history log, the seen-sensors set, plus identity and battery level. -/
structure FwdState where
  drone_id : Nat
  temp_readings : List ℚ
  hum_readings : List ℚ
  anomalies : List Anomaly
  anomaly_history : List Anomaly
  sensor_ids : Finset Nat
  battery_level : Int
deriving DecidableEq

/-- Rounding to two decimal places, modelling round(avg, 2) at drone.py
lines 198-199 (exact ties, where Python rounds to even, are the only
inputs on which this differs; no claim depends on ties). -/
def round2 (x : ℚ) : ℚ := (round (x * 100) : ℤ) / 100

/-- One flush cycle of the forwarder, drone.py lines 186-207.  The
averages default to zero when the temperature window is empty (lines
186-190); the pending-anomaly queue is snapshotted, appended to the
history log and cleared while holding anomalies_lock, before any
transmission (lines 191-194); the Summary is then assembled and sent, and
only after a successful sendall does line 206 clear the seen-sensors set.
sendOk tells whether sock.sendall succeeded; on failure the exception
handler catches at line 208, so the statements after line 204 are skipped:
sensor_ids keeps its contents and no summary is delivered. -/
def send_summary_flush (s : FwdState) (now : Nat) (sendOk : Bool) :
    FwdState × Option Summary :=
  let avg_temp := if s.temp_readings = [] then 0 else listMean s.temp_readings
  let avg_hum := if s.temp_readings = [] then 0 else listMean s.hum_readings
  let snapshot := s.anomalies
  let history := s.anomaly_history ++ snapshot
  let summary : Summary :=
    { drone_id := s.drone_id, sensor_ids := s.sensor_ids,
      average_temperature := round2 avg_temp,
      average_humidity := round2 avg_hum,
      anomalies := snapshot, battery_level := s.battery_level,
      timestamp := now }
  if sendOk then
    ({ s with anomalies := [], anomaly_history := history, sensor_ids := ∅ },
     some summary)
  else
    ({ s with anomalies := [], anomaly_history := history }, none)

/-- Events that touch the pending-anomaly queue and the history log: an
anomaly appended by a connection handler (drone.py lines 162-164) and a
forwarder flush cycle. -/
inductive DroneEvent where
  | detect (a : Anomaly)
  | flush (now : Nat) (sendOk : Bool)

/-- Apply one event to the forwarder-visible state. -/
def applyEvent (s : FwdState) (e : DroneEvent) : FwdState :=
  match e with
  | .detect a => { s with anomalies := s.anomalies ++ [a] }
  | .flush now ok => (send_summary_flush s now ok).1

/-- Run a sequence of events from a state. -/
def runEvents (s : FwdState) (es : List DroneEvent) : FwdState :=
  es.foldl applyEvent s

/-- The anomalies a sequence of events detects, in detection order. -/
def detectedOf (es : List DroneEvent) : List Anomaly :=
  es.filterMap fun e =>
    match e with
    | .detect a => some a
    | .flush _ _ => none

/-- Per-drone bounded plot series, server.py lines 145-150: four parallel
deques with maxlen 50. -/
structure DroneSeries where
  timestamps : List ℚ
  temperatures : List ℚ
  humidities : List ℚ
  battery : List ℚ
deriving DecidableEq

/-- The four empty deques a fresh defaultdict entry starts from. -/
def emptySeries : DroneSeries :=
  { timestamps := [], temperatures := [], humidities := [], battery := [] }

/-- Append one point to every parallel deque, server.py lines 264-267. -/
def series_append (ser : DroneSeries) (now temp hum bat : ℚ) : DroneSeries :=
  { timestamps := deque_append 50 ser.timestamps now,
    temperatures := deque_append 50 ser.temperatures temp,
    humidities := deque_append 50 ser.humidities hum,
    battery := deque_append 50 ser.battery bat }

/-- Process one decoded summary inside CentralServerGUI.process_queue,
server.py lines 263-267: the defaultdict access creates the series of the drone
lazily on first use, then one point is appended to each parallel deque.
The aggregator state is the finite lookup from drone ids to their series
(absent means the defaultdict has no entry yet); now is the receipt time
time.time(). -/
def process_queue_msg (dd : Nat → Option DroneSeries) (msg : Summary) (now : ℚ) :
    Nat → Option DroneSeries :=
  fun d =>
    if d = msg.drone_id then
      some (series_append ((dd msg.drone_id).getD emptySeries) now
        msg.average_temperature msg.average_humidity (msg.battery_level : ℚ))
    else dd d

/-- Deliver a list of (summary, receipt-time) pairs in order. -/
def deliverAll (dd : Nat → Option DroneSeries) (msgs : List (Summary × ℚ)) :
    Nat → Option DroneSeries :=
  msgs.foldl (fun acc p => process_queue_msg acc p.1 p.2) dd

/-- Fold of series_append over a delivery list, describing the series of one drone after its own summaries were processed. -/
def seriesRun (ser : DroneSeries) (msgs : List (Summary × ℚ)) : DroneSeries :=
  msgs.foldl
    (fun t p =>
      series_append t p.2 p.1.average_temperature p.1.average_humidity
        (p.1.battery_level : ℚ))
    ser

/-- Auxiliary invariant of the drone process: whenever the status differs
from Normal, the returning flag - the guard that stops the accept loop -
is set, and the flag likewise stays set for the whole recharge branch
(battery thread away from its loop top). -/
def FlagInv (s : DroneState) : Prop :=
  (s.status ≠ Status.Normal → s.returning_to_base = true) ∧
  (s.phase ≠ BatteryPhase.loopTop → s.returning_to_base = true)

/-- Drone state at level 15 with configured threshold 20, operating
normally with one listener and one forwarder. -/
def stateThr20 : DroneState :=
  { battery_level := 15, battery_threshold := 20, returning_to_base := false,
    running := true, status := .Normal, sensor_server_open := true,
    active_sensor_sockets := [], sensor_server_count := 1, summary_count := 1,
    phase := .loopTop }

/-- Same drone state with the threshold configured to 10. -/
def stateThr10 : DroneState := { stateThr20 with battery_threshold := 10 }

/-- Drone state whose battery is already depleted while one sensor
connection (socket number 7) is active and the listener is open. -/
def stateDepleted : DroneState :=
  { stateThr10 with battery_level := 0, active_sensor_sockets := [7] }

/-- Drone state one tick above the hard-coded transition bound. -/
def stateLow : DroneState := { stateThr10 with battery_level := 11 }

/-- Drone state just after entering ReturningToBase through the drain
tick: listener closed, both threads have exited. -/
def stateReturning : DroneState :=
  { stateThr10 with
    battery_level := 10, returning_to_base := true,
    status := .ReturningToBase, sensor_server_open := false, running := false,
    sensor_server_count := 0, summary_count := 0 }

/-- Forwarder state with one pending anomaly and one seen sensor. -/
def fwdEx : FwdState :=
  { drone_id := 1, temp_readings := [20, 21], hum_readings := [40, 41],
    anomalies := [⟨3, 50, 5⟩], anomaly_history := [], sensor_ids := {3},
    battery_level := 80 }

/-- Decoder accepting exactly the two-byte record 1, 2; used to exercise
handle_sensor_chunk on concrete inputs. -/
def demoDecode (b : List Nat) : Option Nat :=
  if b = [1, 2] then some 7 else none

/-- A fixed summary from drone 0 used to exercise the aggregator. -/
def demoSummary : Summary :=
  { drone_id := 0, sensor_ids := {3}, average_temperature := 25,
    average_humidity := 50, anomalies := [], battery_level := 90,
    timestamp := 0 }

/-- Fifty-one deliveries of demoSummary, all at receipt time 7. -/
def demoMsgs : List (Summary × ℚ) := List.replicate 51 (demoSummary, 7)

/-- Aggregator state with no entries yet. -/
def ddEmpty : Nat → Option DroneSeries := fun _ => none

/-- The population variance of a list of rationals is nonnegative. -/
theorem listPopVar_nonneg (l : List ℚ) : 0 ≤ listPopVar l := by
  unfold listPopVar
  apply div_nonneg
  · apply List.sum_nonneg
    intro x hx
    obtain ⟨y, _, rfl⟩ := List.mem_map.mp hx
    positivity
  · positivity

/-- Comparing a distance with twice a square root is the same as comparing
the squared distance with four times the radicand. -/
theorem two_sqrt_lt_abs_iff (a v : ℝ) (hv : 0 ≤ v) :
    2 * Real.sqrt v < |a| ↔ 4 * v < a ^ 2 := by
  constructor
  · intro h
    nlinarith [Real.sq_sqrt hv, Real.sqrt_nonneg v, sq_abs a, abs_nonneg a]
  · intro h
    nlinarith [Real.sq_sqrt hv, Real.sqrt_nonneg v, sq_abs a, abs_nonneg a]

/-- Claim C1: with fewer than 10 samples in the window, detect_anomaly
returns false regardless of the value; on a full window of 10 samples,
which already includes the just-appended value, it returns true exactly
when the distance from the new value to the arithmetic mean of the window
exceeds twice the population standard deviation (squared deviations summed
and divided by N = 10, not N - 1). -/
theorem detect_anomaly_spec (value : ℚ) (readings : List ℚ) :
    (readings.length < 10 → detect_anomaly value readings = false) ∧
    (readings.length = 10 →
      (detect_anomaly value readings = true ↔
        |((value - listMean readings : ℚ) : ℝ)| >
          2 * Real.sqrt ((listPopVar readings : ℚ) : ℝ))) := by
  constructor
  · intro h
    simp [detect_anomaly, windowMaxlen, h]
  · intro h
    have hv : (0 : ℝ) ≤ ((listPopVar readings : ℚ) : ℝ) := by
      exact_mod_cast listPopVar_nonneg readings
    have hbridge := two_sqrt_lt_abs_iff (((value - listMean readings : ℚ) : ℝ))
      ((listPopVar readings : ℚ) : ℝ) hv
    have hq : detect_anomaly value readings = true ↔
        4 * listPopVar readings < (value - listMean readings) ^ 2 := by
      simp [detect_anomaly, windowMaxlen, h]
    rw [hq]
    constructor
    · intro hlt
      exact hbridge.mpr (by exact_mod_cast hlt)
    · intro hgt
      have hr := hbridge.mp hgt
      exact_mod_cast hr

/-- Claim C1 witness: the truncated-window clause at a 3-sample window and
the full-window clause at a uniform-plus-outlier window. -/
theorem detect_anomaly_spec_witness :
    detect_anomaly 0 [1, 2, 3] = false ∧
    (detect_anomaly 100 [10, 10, 10, 10, 10, 10, 10, 10, 10, 100] = true ↔
      |((100 - listMean [10, 10, 10, 10, 10, 10, 10, 10, 10, 100] : ℚ) : ℝ)| >
        2 * Real.sqrt
          ((listPopVar [10, 10, 10, 10, 10, 10, 10, 10, 10, 100] : ℚ) : ℝ)) :=
  ⟨(detect_anomaly_spec 0 [1, 2, 3]).1 (by decide),
   (detect_anomaly_spec 100 [10, 10, 10, 10, 10, 10, 10, 10, 10, 100]).2
     (by decide)⟩

/-- A bounded append on a list within capacity drops a computable number
of oldest elements. -/
theorem deque_append_eq_drop (cap : Nat) (w : List ℚ) (x : ℚ)
    (h : w.length ≤ cap) :
    deque_append cap w x = (w ++ [x]).drop (w.length + 1 - cap) := by
  unfold deque_append
  simp only [List.length_append, List.length_cons, List.length_nil]
  split_ifs with h1
  · rfl
  · rw [Nat.sub_eq_zero_of_le (by omega), List.drop_zero]

/-- A bounded append never grows a list beyond the capacity. -/
theorem deque_append_length_le (cap : Nat) (w : List ℚ) (x : ℚ)
    (h : w.length ≤ cap) : (deque_append cap w x).length ≤ cap := by
  rw [deque_append_eq_drop cap w x h]
  simp only [List.length_drop, List.length_append, List.length_cons,
    List.length_nil]
  omega

/-- Folding bounded appends over an input sequence keeps exactly the most
recent elements: the result is the concatenation with the oldest overflow
dropped from the left. -/
theorem foldl_deque_append (cap : Nat) (xs : List ℚ) :
    ∀ w : List ℚ, w.length ≤ cap →
      List.foldl (deque_append cap) w xs
        = (w ++ xs).drop (w.length + xs.length - cap) := by
  induction xs with
  | nil =>
      intro w h
      simp only [List.foldl_nil, List.append_nil, List.length_nil,
        Nat.add_zero]
      rw [Nat.sub_eq_zero_of_le h, List.drop_zero]
  | cons a rest ih =>
      intro w h
      rw [List.foldl_cons]
      rw [ih (deque_append cap w a) (deque_append_length_le cap w a h)]
      rw [deque_append_eq_drop cap w a h]
      rw [← List.drop_append_of_le_length
        (by simp only [List.length_append, List.length_cons, List.length_nil]
            omega)]
      rw [List.drop_drop]
      have heq : (w ++ [a]) ++ rest = w ++ a :: rest := by simp
      rw [heq]
      congr 1
      simp only [List.length_drop, List.length_append, List.length_cons,
        List.length_nil]
      omega

/-- Claim C7: a rolling window never holds more than 10 samples, and
insertion into a full window evicts exactly the oldest sample: inserting
an 11-entry sequence into an empty window leaves the last 10 inserted
values in insertion order, and whenever the first inserted value does not
recur among the other ten it is absent from the window afterwards. -/
theorem rolling_window_fifo :
    (∀ (w : List ℚ) (x : ℚ), w.length ≤ windowMaxlen →
      (deque_append windowMaxlen w x).length ≤ windowMaxlen) ∧
    (∀ (a : ℚ) (rest : List ℚ), rest.length = 10 →
      List.foldl (deque_append windowMaxlen) [] (a :: rest) = rest ∧
      (a ∉ rest → a ∉ List.foldl (deque_append windowMaxlen) [] (a :: rest))) := by
  constructor
  · intro w x h
    exact deque_append_length_le _ w x h
  · intro a rest h
    have hfold : List.foldl (deque_append windowMaxlen) [] (a :: rest) = rest := by
      rw [foldl_deque_append windowMaxlen (a :: rest) [] (by simp)]
      simp only [List.nil_append, List.length_nil, List.length_cons, h,
        windowMaxlen, Nat.zero_add]
      rw [show 10 + 1 - 10 = 1 from rfl, List.drop_one, List.tail_cons]
    refine ⟨hfold, ?_⟩
    intro ha
    rw [hfold]
    exact ha

/-- Claim C7 witness: eleven concrete insertions keep the last ten in
order and evict the first value. -/
theorem rolling_window_fifo_witness :
    List.foldl (deque_append windowMaxlen) ([] : List ℚ)
        [0, 1, 2, 3, 4, 5, 6, 7, 8, 9, 10] = [1, 2, 3, 4, 5, 6, 7, 8, 9, 10] ∧
    (0 : ℚ) ∉ List.foldl (deque_append windowMaxlen) ([] : List ℚ)
        [0, 1, 2, 3, 4, 5, 6, 7, 8, 9, 10] :=
  ⟨(rolling_window_fifo.2 0 [1, 2, 3, 4, 5, 6, 7, 8, 9, 10] (by decide)).1,
   (rolling_window_fifo.2 0 [1, 2, 3, 4, 5, 6, 7, 8, 9, 10] (by decide)).2
     (by decide)⟩

/-- Claim C2 evidence: a drain tick decrements the level by exactly one,
but the transition to ReturningToBase is decided by the hard-coded bound
10 of drone.py line 83, never by the configured battery_threshold (loaded
at line 39 and then unused).  With threshold 20 and level 15 one tick
leaves level 14, which is at most the threshold, yet the machine stays
Normal; with threshold 10 and level 15 the fifth tick reaches level 10 and
transitions on that same tick. -/
theorem battery_threshold_ignored :
    ((update_battery_step stateThr20).battery_level = 14 ∧
      (update_battery_step stateThr20).battery_level ≤ stateThr20.battery_threshold ∧
      (update_battery_step stateThr20).status = Status.Normal ∧
      (update_battery_step stateThr20).returning_to_base = false) ∧
    ((update_battery_step (update_battery_step (update_battery_step
        (update_battery_step (update_battery_step stateThr10))))).battery_level = 10 ∧
      (update_battery_step (update_battery_step (update_battery_step
        (update_battery_step (update_battery_step stateThr10))))).status
          = Status.ReturningToBase ∧
      (update_battery_step (update_battery_step (update_battery_step
        (update_battery_step (update_battery_step stateThr10))))).returning_to_base
          = true) := by
  decide

/-- Claim C3 counterexample: entering ReturningToBase through the depleted
branch (battery already 0, drone.py lines 103-106) neither stops the
listening endpoint nor closes or clears the active sensor connections. -/
theorem battery_shutdown_counterexample :
    (update_battery_step stateDepleted).status = Status.ReturningToBase ∧
    (update_battery_step stateDepleted).returning_to_base = true ∧
    (update_battery_step stateDepleted).sensor_server_open = true ∧
    (update_battery_step stateDepleted).active_sensor_sockets = [7] := by
  decide

/-- One battery step preserves the flag invariant. -/
theorem update_battery_step_inv (s : DroneState) (h : FlagInv s) :
    FlagInv (update_battery_step s) := by
  obtain ⟨h1, h2⟩ := h
  rcases s with ⟨lvl, thr, ret, run, st, so, act, c1, c2, ph⟩
  cases ph <;> cases ret <;>
    simp_all [update_battery_step, FlagInv] <;>
    split_ifs <;> simp_all

/-- Every interleaved step preserves the flag invariant. -/
theorem sysStep_inv {s t : DroneState} (h : FlagInv s) (hst : SysStep s t) :
    FlagInv t := by
  cases hst with
  | battery => exact update_battery_step_inv s h
  | accept c hc => exact h
  | disconnect c => exact h
  | listener_stop hg => exact h
  | forwarder_stop hg => exact h

/-- The flag invariant holds in every reachable state. -/
theorem reachable_inv {init s : DroneState} (h0 : FlagInv init)
    (hr : Reachable init s) : FlagInv s := by
  induction hr with
  | refl => exact h0
  | tail _ hst ih => exact sysStep_inv ih hst

/-- Claim C3 amended: when the machine enters ReturningToBase through the
drain tick (level positive before the tick, drone.py lines 79-102) it
stops the listening endpoint, clears the active-connections list and stops
the forwarder loop; the depleted branch (level already 0) only sets the
flag and the status, leaving listener and connections untouched.  In every
state reachable from an initial Normal state with the battery thread at
its loop top, a status other than Normal implies the accept-loop guard is
set, so the ingestion server is not accepting new connections. -/
theorem battery_shutdown_amended :
    (∀ s : DroneState, s.returning_to_base = false → 0 < s.battery_level →
      s.phase = BatteryPhase.loopTop →
      (update_battery_step s).returning_to_base = true →
      (update_battery_step s).status = Status.ReturningToBase ∧
      (update_battery_step s).sensor_server_open = false ∧
      (update_battery_step s).active_sensor_sockets = [] ∧
      (update_battery_step s).running = false) ∧
    (∀ init s : DroneState, init.status = Status.Normal →
      init.phase = BatteryPhase.loopTop → Reachable init s →
      s.status ≠ Status.Normal → accepting s = false) := by
  constructor
  · intro s hret hlvl hph htrans
    rcases s with ⟨lvl, thr, ret, run, st, so, act, c1, c2, ph⟩
    simp_all [update_battery_step]
    split_ifs at htrans ⊢ <;> simp_all
  · intro init s hst hph hr hnn
    have h0 : FlagInv init := by
      constructor
      · intro hc; exact absurd hst hc
      · intro hc; exact absurd hph hc
    have hret := (reachable_inv h0 hr).1 hnn
    simp [accepting, hret]

/-- Claim C3 amended witness: from level 11 the drain tick reaches 10 and
performs the full shutdown, and the resulting state, reachable in one
step, is not accepting connections. -/
theorem battery_shutdown_amended_witness :
    ((update_battery_step stateLow).status = Status.ReturningToBase ∧
      (update_battery_step stateLow).sensor_server_open = false ∧
      (update_battery_step stateLow).active_sensor_sockets = [] ∧
      (update_battery_step stateLow).running = false) ∧
    accepting (update_battery_step stateLow) = false :=
  ⟨battery_shutdown_amended.1 stateLow rfl (by decide) rfl (by decide),
   battery_shutdown_amended.2 stateLow (update_battery_step stateLow) rfl rfl
     (Reachable.tail Reachable.refl (SysStep.battery stateLow)) (by decide)⟩

/-- Claim C4: a full recharge cycle - the battery thread enters the
returning branch, sleeps the fixed 30 time units, switches to Charging,
sleeps the fixed 5 time units and re-enters Normal - resets the level to
100 and leaves exactly one listener thread and one forwarder thread: the
restarts at drone.py lines 120-125 are guarded on liveness, so a surviving
instance is not duplicated and a dead one is replaced. -/
theorem recharge_cycle_spec (s : DroneState) (hret : s.returning_to_base = true)
    (hph : s.phase = BatteryPhase.loopTop)
    (hc1 : s.sensor_server_count ≤ 1) (hc2 : s.summary_count ≤ 1) :
    update_battery_sleep s = 30 ∧
    update_battery_sleep (update_battery_step s) = 5 ∧
    (update_battery_step (update_battery_step (update_battery_step s))).battery_level = 100 ∧
    (update_battery_step (update_battery_step (update_battery_step s))).status = Status.Normal ∧
    (update_battery_step (update_battery_step (update_battery_step s))).returning_to_base = false ∧
    (update_battery_step (update_battery_step (update_battery_step s))).running = true ∧
    (update_battery_step (update_battery_step (update_battery_step s))).sensor_server_count = 1 ∧
    (update_battery_step (update_battery_step (update_battery_step s))).summary_count = 1 := by
  rcases s with ⟨lvl, thr, ret, run, st, so, act, c1, c2, ph⟩
  simp_all [update_battery_step, update_battery_sleep]
  constructor <;> omega

/-- Claim C4 witness: the cycle from a concrete returning state with both
threads torn down ends at level 100 with one listener and one forwarder. -/
theorem recharge_cycle_spec_witness :
    update_battery_sleep stateReturning = 30 ∧
    update_battery_sleep (update_battery_step stateReturning) = 5 ∧
    (update_battery_step (update_battery_step (update_battery_step stateReturning))).battery_level = 100 ∧
    (update_battery_step (update_battery_step (update_battery_step stateReturning))).status = Status.Normal ∧
    (update_battery_step (update_battery_step (update_battery_step stateReturning))).returning_to_base = false ∧
    (update_battery_step (update_battery_step (update_battery_step stateReturning))).running = true ∧
    (update_battery_step (update_battery_step (update_battery_step stateReturning))).sensor_server_count = 1 ∧
    (update_battery_step (update_battery_step (update_battery_step stateReturning))).summary_count = 1 :=
  recharge_cycle_spec stateReturning rfl rfl (by decide) (by decide)

/-- Claim C5: every flush cycle snapshots the pending-anomaly queue,
appends the snapshot to the local anomaly history log and clears the
queue, before and independent of the transmission outcome; on a failed
send no summary is delivered and the snapshot is neither restored to the
pending queue nor retransmitted - a summary produced by any directly
following flush carries no anomaly from the failed cycle - while the
history log still contains it. -/
theorem send_summary_anomaly_spec (s : FwdState) (now : Nat) (sendOk : Bool) :
    (send_summary_flush s now sendOk).1.anomalies = [] ∧
    (send_summary_flush s now sendOk).1.anomaly_history
        = s.anomaly_history ++ s.anomalies ∧
    (sendOk = false → (send_summary_flush s now sendOk).2 = none) ∧
    (∀ a ∈ s.anomalies, a ∈ (send_summary_flush s now sendOk).1.anomaly_history) ∧
    (∀ (now2 : Nat) (ok2 : Bool) (sm : Summary),
      (send_summary_flush (send_summary_flush s now false).1 now2 ok2).2 = some sm →
        sm.anomalies = []) := by
  refine ⟨?_, ?_, ?_, ?_, ?_⟩
  · cases sendOk <;> simp [send_summary_flush]
  · cases sendOk <;> simp [send_summary_flush]
  · intro h
    subst h
    simp [send_summary_flush]
  · intro a ha
    cases sendOk <;> simp [send_summary_flush] <;> exact Or.inr ha
  · intro now2 ok2 sm hsm
    have h1 : (send_summary_flush s now false).1.anomalies = [] := by
      simp [send_summary_flush]
    cases ok2
    · simp [send_summary_flush] at hsm
    · have h2 : Option.map Summary.anomalies
          (send_summary_flush (send_summary_flush s now false).1 now2 true).2
          = some (send_summary_flush s now false).1.anomalies := rfl
      rw [hsm] at h2
      rw [h1] at h2
      exact Option.some.inj h2

/-- Claim C5 witness: at a concrete state with one pending anomaly and a
failing send, the queue is cleared, the history holds the anomaly and
nothing is delivered. -/
theorem send_summary_anomaly_spec_witness :
    (send_summary_flush fwdEx 0 false).1.anomalies = [] ∧
    (send_summary_flush fwdEx 0 false).1.anomaly_history = [⟨3, 50, 5⟩] ∧
    (send_summary_flush fwdEx 0 false).2 = none := by
  have h := send_summary_anomaly_spec fwdEx 0 false
  refine ⟨h.1, ?_, h.2.2.1 rfl⟩
  rw [h.2.1]
  rfl

/-- Claim C6 counterexample: at a flush whose send fails, the seen-sensors
set is not cleared - drone.py clears it only at line 206, after a
successful sendall - so it does not become empty for the next cycle. -/
theorem sensor_ids_clear_counterexample :
    (send_summary_flush fwdEx 0 false).1.sensor_ids = {3} ∧
    ({3} : Finset Nat) ≠ (∅ : Finset Nat) := by
  refine ⟨rfl, by decide⟩

/-- Claim C6 amended: each flush copies the contents of the seen-sensors set
into the sensor_ids of the Summary at assembly time, but the set is cleared
only after a successful transmission: on success it becomes empty for the
next cycle, while on a send failure it is left unchanged and its contents
carry over. -/
theorem sensor_ids_clear_amended (s : FwdState) (now : Nat) :
    Option.map Summary.sensor_ids (send_summary_flush s now true).2
        = some s.sensor_ids ∧
    (send_summary_flush s now true).1.sensor_ids = ∅ ∧
    (send_summary_flush s now false).1.sensor_ids = s.sensor_ids := by
  refine ⟨?_, ?_, ?_⟩ <;> simp [send_summary_flush]

/-- Claim C8: the receive loop offers the whole accumulated buffer to the
decoder after every read; a decode failure keeps every buffered byte, a
success resets the buffer to empty and yields the record, and hence any
bytes trailing a successfully decoded record inside the same buffer are
dropped instead of being kept as the start of the next record. -/
theorem ingestion_buffer_spec {α : Type} (decode : List Nat → Option α)
    (buffer chunk : List Nat) :
    (decode (buffer ++ chunk) = none →
      (handle_sensor_chunk decode buffer chunk).1 = buffer ++ chunk) ∧
    (∀ r : α, decode (buffer ++ chunk) = some r →
      (handle_sensor_chunk decode buffer chunk).1 = [] ∧
      (handle_sensor_chunk decode buffer chunk).2 = some r) ∧
    (∀ (r : α) (record trailing : List Nat),
      decode (buffer ++ chunk) = some r →
      buffer ++ chunk = record ++ trailing →
      ∀ b ∈ trailing, b ∉ (handle_sensor_chunk decode buffer chunk).1) := by
  refine ⟨?_, ?_, ?_⟩
  · intro h
    simp [handle_sensor_chunk, h]
  · intro r h
    simp [handle_sensor_chunk, h]
  · intro r record trailing h _ b _
    simp [handle_sensor_chunk, h]

/-- Claim C8 witness: with a decoder accepting exactly the record 1, 2, a
completing chunk resets the buffer and yields the record - dropping any
would-be trailing byte - while a non-decodable accumulation is kept. -/
theorem ingestion_buffer_spec_witness :
    (handle_sensor_chunk demoDecode [1] [2]).1 = [] ∧
    (handle_sensor_chunk demoDecode [1] [2]).2 = some 7 ∧
    (handle_sensor_chunk demoDecode [1] [3]).1 = [1, 3] :=
  ⟨((ingestion_buffer_spec demoDecode [1] [2]).2.1 7 (by decide)).1,
   ((ingestion_buffer_spec demoDecode [1] [2]).2.1 7 (by decide)).2,
   (ingestion_buffer_spec demoDecode [1] [3]).1 (by decide)⟩

/-- Running any event sequence, the history log plus the still-pending
queue equals the initial log plus queue plus everything detected, in
order. -/
theorem runEvents_partition (es : List DroneEvent) :
    ∀ s : FwdState,
      (runEvents s es).anomaly_history ++ (runEvents s es).anomalies
        = s.anomaly_history ++ s.anomalies ++ detectedOf es := by
  induction es with
  | nil =>
      intro s
      simp [runEvents, detectedOf]
  | cons e rest ih =>
      intro s
      have h := ih (applyEvent s e)
      cases e with
      | detect a =>
          simp only [runEvents, List.foldl_cons] at h ⊢
          rw [h]
          simp [applyEvent, detectedOf, List.filterMap_cons, List.append_assoc]
      | flush now ok =>
          simp only [runEvents, List.foldl_cons] at h ⊢
          rw [h]
          cases ok <;>
            simp [applyEvent, send_summary_flush, detectedOf,
              List.filterMap_cons, List.append_assoc]

/-- Running any event sequence only ever extends the history log on the
right. -/
theorem runEvents_history_extends (es : List DroneEvent) :
    ∀ s : FwdState, ∃ t : List Anomaly,
      (runEvents s es).anomaly_history = s.anomaly_history ++ t := by
  induction es with
  | nil =>
      intro s
      exact ⟨[], by simp [runEvents]⟩
  | cons e rest ih =>
      intro s
      obtain ⟨t, ht⟩ := ih (applyEvent s e)
      cases e with
      | detect a =>
          exact ⟨t, by simpa [runEvents, applyEvent] using ht⟩
      | flush now ok =>
          refine ⟨s.anomalies ++ t, ?_⟩
          simp only [runEvents, List.foldl_cons] at ht ⊢
          rw [ht]
          cases ok <;>
            simp [applyEvent, send_summary_flush, List.append_assoc]

/-- Claim C10: the anomaly history log of the drone is append-only - every
event sequence extends it on the right and nothing removes or truncates
entries - the log plus the pending queue always lists every anomaly ever
detected in detection order, and after any sequence that ends with a flush
cycle the log alone holds them all, without bound. -/
theorem anomaly_history_append_only (s : FwdState) (es : List DroneEvent) :
    (∃ t : List Anomaly,
      (runEvents s es).anomaly_history = s.anomaly_history ++ t) ∧
    (runEvents s es).anomaly_history ++ (runEvents s es).anomalies
        = s.anomaly_history ++ s.anomalies ++ detectedOf es ∧
    (∀ (now : Nat) (ok : Bool),
      (runEvents s (es ++ [DroneEvent.flush now ok])).anomaly_history
        = s.anomaly_history ++ s.anomalies ++ detectedOf es) := by
  refine ⟨runEvents_history_extends es s, runEvents_partition es s, ?_⟩
  intro now ok
  have h1 : runEvents s (es ++ [DroneEvent.flush now ok])
      = applyEvent (runEvents s es) (DroneEvent.flush now ok) := by
    simp [runEvents, List.foldl_append]
  rw [h1]
  have h2 := runEvents_partition es s
  cases ok <;> simpa [applyEvent, send_summary_flush] using h2

/-- Processing a summary leaves every other drone id untouched. -/
theorem process_queue_msg_other (dd : Nat → Option DroneSeries) (msg : Summary)
    (now : ℚ) (d : Nat) (h : d ≠ msg.drone_id) :
    process_queue_msg dd msg now d = dd d := by
  simp [process_queue_msg, h]

/-- Delivering any number of summaries that all carry other drone ids
leaves the entry of that drone untouched. -/
theorem deliverAll_other (msgs : List (Summary × ℚ)) :
    ∀ (dd : Nat → Option DroneSeries) (b : Nat),
      (∀ p ∈ msgs, p.1.drone_id ≠ b) → deliverAll dd msgs b = dd b := by
  induction msgs with
  | nil =>
      intro dd b _
      rfl
  | cons m rest ih =>
      intro dd b h
      have hm : m.1.drone_id ≠ b := h m (List.mem_cons_self m rest)
      have hrest : ∀ p ∈ rest, p.1.drone_id ≠ b :=
        fun p hp => h p (List.mem_cons_of_mem m hp)
      have hstep : deliverAll dd (m :: rest) b
          = deliverAll (process_queue_msg dd m.1 m.2) rest b := by
        simp [deliverAll, List.foldl_cons]
      rw [hstep, ih (process_queue_msg dd m.1 m.2) b hrest]
      exact process_queue_msg_other dd m.1 m.2 b (Ne.symm hm)

/-- Delivering a nonempty run of summaries that all carry one drone id
makes the entry of that drone the fold of series appends over the run, starting
from its previous series or from the empty one. -/
theorem deliverAll_target (a : Nat) (msgs : List (Summary × ℚ)) :
    ∀ (dd : Nat → Option DroneSeries) (m : Summary × ℚ),
      m.1.drone_id = a → (∀ p ∈ msgs, p.1.drone_id = a) →
      deliverAll dd (m :: msgs) a
        = some (seriesRun ((dd a).getD emptySeries) (m :: msgs)) := by
  induction msgs with
  | nil =>
      intro dd m hm _
      simp [deliverAll, seriesRun, List.foldl_cons, process_queue_msg, hm]
  | cons m2 rest ih =>
      intro dd m hm hall
      have hm2 : m2.1.drone_id = a := hall m2 (List.mem_cons_self m2 rest)
      have hrest : ∀ p ∈ rest, p.1.drone_id = a :=
        fun p hp => hall p (List.mem_cons_of_mem m2 hp)
      have hstep : deliverAll dd (m :: m2 :: rest) a
          = deliverAll (process_queue_msg dd m.1 m.2) (m2 :: rest) a := by
        simp [deliverAll, List.foldl_cons]
      rw [hstep, ih (process_queue_msg dd m.1 m.2) m2 hm2 hrest]
      have hacc : (process_queue_msg dd m.1 m.2 a).getD emptySeries
          = series_append ((dd a).getD emptySeries) m.2 m.1.average_temperature
              m.1.average_humidity (m.1.battery_level : ℚ) := by
        simp [process_queue_msg, hm]
      rw [hacc]
      rfl

/-- The four parallel deques of a series fold componentwise as bounded
appends over the projected input sequences. -/
theorem seriesRun_fields (msgs : List (Summary × ℚ)) :
    ∀ ser : DroneSeries,
      (seriesRun ser msgs).timestamps
          = List.foldl (deque_append 50) ser.timestamps (msgs.map fun p => p.2) ∧
      (seriesRun ser msgs).temperatures
          = List.foldl (deque_append 50) ser.temperatures
              (msgs.map fun p => p.1.average_temperature) ∧
      (seriesRun ser msgs).humidities
          = List.foldl (deque_append 50) ser.humidities
              (msgs.map fun p => p.1.average_humidity) ∧
      (seriesRun ser msgs).battery
          = List.foldl (deque_append 50) ser.battery
              (msgs.map fun p => (p.1.battery_level : ℚ)) := by
  induction msgs with
  | nil =>
      intro ser
      exact ⟨rfl, rfl, rfl, rfl⟩
  | cons m rest ih =>
      intro ser
      have h := ih (series_append ser m.2 m.1.average_temperature
        m.1.average_humidity (m.1.battery_level : ℚ))
      simp only [seriesRun, List.foldl_cons, List.map_cons] at h ⊢
      exact ⟨h.1, h.2.1, h.2.2.1, h.2.2.2⟩

/-- Claim C9: the aggregator keeps, per drone id, lazily created parallel
series of capacity 50, and the series of distinct drone ids are
independent: summaries that all carry one drone id never change another
entry of any other drone, a first summary creates the series, and delivering 51
summaries to a fresh drone leaves exactly the last 50 points of every
parallel sequence in order, evicting only the oldest point. -/
theorem aggregator_series_spec (dd : Nat → Option DroneSeries) (a b : Nat)
    (hab : b ≠ a) (msgs : List (Summary × ℚ))
    (hall : ∀ p ∈ msgs, p.1.drone_id = a) :
    deliverAll dd msgs b = dd b ∧
    (dd a = none → msgs ≠ [] → deliverAll dd msgs a ≠ none) ∧
    (dd a = none → msgs.length = 51 →
      ∃ ser : DroneSeries, deliverAll dd msgs a = some ser ∧
        ser.timestamps = (msgs.map fun p => p.2).drop 1 ∧
        ser.temperatures = (msgs.map fun p => p.1.average_temperature).drop 1 ∧
        ser.humidities = (msgs.map fun p => p.1.average_humidity).drop 1 ∧
        ser.battery = (msgs.map fun p => (p.1.battery_level : ℚ)).drop 1 ∧
        ser.timestamps.length = 50) := by
  refine ⟨?_, ?_, ?_⟩
  · exact deliverAll_other msgs dd b
      (fun p hp => by rw [hall p hp]; exact Ne.symm hab)
  · intro ha hne
    cases msgs with
    | nil => exact absurd rfl hne
    | cons m rest =>
        rw [deliverAll_target a rest dd m
          (hall m (List.mem_cons_self m rest))
          (fun p hp => hall p (List.mem_cons_of_mem m hp))]
        exact Option.some_ne_none _
  · intro ha hlen
    cases msgs with
    | nil => simp at hlen
    | cons m rest =>
        rw [deliverAll_target a rest dd m
          (hall m (List.mem_cons_self m rest))
          (fun p hp => hall p (List.mem_cons_of_mem m hp))]
        rw [ha]
        simp only [List.length_cons] at hlen
        have hts : (seriesRun emptySeries (m :: rest)).timestamps
            = ((m :: rest).map fun p : Summary × ℚ => p.2).drop 1 := by
          rw [(seriesRun_fields (m :: rest) emptySeries).1]
          simp only [emptySeries]
          rw [foldl_deque_append 50 ((m :: rest).map fun p : Summary × ℚ => p.2)
              [] (by simp), List.nil_append]
          congr 1
          simp only [List.length_nil, List.length_map, List.length_cons]
          omega
        have htemp : (seriesRun emptySeries (m :: rest)).temperatures
            = ((m :: rest).map fun p : Summary × ℚ => p.1.average_temperature).drop 1 := by
          rw [(seriesRun_fields (m :: rest) emptySeries).2.1]
          simp only [emptySeries]
          rw [foldl_deque_append 50
              ((m :: rest).map fun p : Summary × ℚ => p.1.average_temperature)
              [] (by simp), List.nil_append]
          congr 1
          simp only [List.length_nil, List.length_map, List.length_cons]
          omega
        have hhum : (seriesRun emptySeries (m :: rest)).humidities
            = ((m :: rest).map fun p : Summary × ℚ => p.1.average_humidity).drop 1 := by
          rw [(seriesRun_fields (m :: rest) emptySeries).2.2.1]
          simp only [emptySeries]
          rw [foldl_deque_append 50
              ((m :: rest).map fun p : Summary × ℚ => p.1.average_humidity)
              [] (by simp), List.nil_append]
          congr 1
          simp only [List.length_nil, List.length_map, List.length_cons]
          omega
        have hbat : (seriesRun emptySeries (m :: rest)).battery
            = ((m :: rest).map fun p : Summary × ℚ => (p.1.battery_level : ℚ)).drop 1 := by
          rw [(seriesRun_fields (m :: rest) emptySeries).2.2.2]
          simp only [emptySeries]
          rw [foldl_deque_append 50
              ((m :: rest).map fun p : Summary × ℚ => (p.1.battery_level : ℚ))
              [] (by simp), List.nil_append]
          congr 1
          simp only [List.length_nil, List.length_map, List.length_cons]
          omega
        refine ⟨seriesRun emptySeries (m :: rest), rfl, hts, htemp, hhum, hbat, ?_⟩
        rw [hts]
        simp only [List.length_drop, List.length_map, List.length_cons]
        omega

/-- Claim C9 witness: from an empty aggregator, 51 deliveries for drone 0
leave drone 1 absent, create the series of drone 0 and bound it at 50 points. -/
theorem aggregator_series_spec_witness :
    deliverAll ddEmpty demoMsgs 1 = none ∧
    ∃ ser : DroneSeries, deliverAll ddEmpty demoMsgs 0 = some ser ∧
      ser.timestamps = (demoMsgs.map fun p => p.2).drop 1 ∧
      ser.timestamps.length = 50 := by
  have h := aggregator_series_spec ddEmpty 0 1 (by decide) demoMsgs
    (by
      intro p hp
      rw [List.eq_of_mem_replicate hp]
      rfl)
  refine ⟨h.1, ?_⟩
  obtain ⟨ser, h1, h2, _, _, _, h6⟩ := h.2.2 rfl (by simp [demoMsgs])
  exact ⟨ser, h1, h2, h6⟩
